import Mathlib

/-!
Shallow embedding of the camera-database pipeline of this repository
(`tools/download_cameras.py` and `tools/update_cameras.py`).

Modelling conventions:
* Python floats are modelled as exact rationals (`ℚ`); `round(x, d)` is
  modelled as decimal rounding with ties to even (`rhe`, matching Python's
  `round`). The concrete inputs appearing below are never ties.
* Arithmetic on `ℚ` inside executable definitions is expressed through
  `qmul`/`qsub`/`Rat.divInt`/`mkRat` (which the evaluator can unfold);
  lemmas `qmul_eq`/`qsub_eq` identify them with `*` and `-`.
* Python strings are modelled as `String` / `List Char`; dictionaries of
  OSM tags as association lists.
* `float(s)` is modelled for decimal numerals with optional sign, fraction
  and exponent; `inf`/`nan` and underscore digit separators are not
  modelled (no claim below evaluates them).
* Fallible Python code (`KeyError`, `sys.exit`) is modelled with `Except`.
-/

namespace V1Cameras

/-! ## Definitions translated from the source -/

/-- Multiplication on `ℚ` by explicit numerator/denominator arithmetic. -/
def qmul (a b : ℚ) : ℚ := Rat.divInt (a.num * b.num) ((a.den : ℤ) * (b.den : ℤ))

/-- Subtraction on `ℚ` by explicit numerator/denominator arithmetic. -/
def qsub (a b : ℚ) : ℚ :=
  Rat.divInt (a.num * (b.den : ℤ) - b.num * (a.den : ℤ)) ((a.den : ℤ) * (b.den : ℤ))

/-- Round half to even, as Python's `round` does on exact values:
`rhe q` is the integer nearest to `q`, ties going to the even integer. -/
def rhe (q : ℚ) : ℤ :=
  let f := q.floor
  let r := qsub q ((f : ℤ) : ℚ)
  if r < mkRat 1 2 then f
  else if mkRat 1 2 < r then f + 1
  else if f % 2 = 0 then f else f + 1

/-- Python `round(q, d)`: decimal rounding at `d` places. -/
def roundDec (d : ℕ) (q : ℚ) : ℚ := Rat.divInt (rhe (qmul q (10 ^ d))) ((10 : ℤ) ^ d)

/-- Python `int(float(q))`: truncation toward zero. -/
def qtrunc (q : ℚ) : ℤ := if q < 0 then -((-q).floor) else q.floor

/-! ### String utilities mirroring the Python string operations used -/

/-- Python `str.split()` / `re` whitespace class (ASCII part). -/
def isPyWs (c : Char) : Bool :=
  c = ' ' ∨ c = '\t' ∨ c = '\n' ∨ c = '\r' ∨ c = Char.ofNat 11 ∨ c = Char.ofNat 12

/-- Python `str.strip()`: drop leading and trailing whitespace. -/
def stripWsL (cs : List Char) : List Char :=
  ((cs.dropWhile isPyWs).reverse.dropWhile isPyWs).reverse

/-- Python `str.strip('\x22')`: drop leading and trailing double quotes. -/
def stripQL (cs : List Char) : List Char :=
  ((cs.dropWhile (· = '\x22')).reverse.dropWhile (· = '\x22')).reverse

/-- Helper for Python `str.split()` (split on whitespace runs, no empties). -/
def wsTokensGo : List Char → List Char → List (List Char)
  | [], cur => if cur.isEmpty then [] else [cur.reverse]
  | c :: rest, cur =>
    if isPyWs c then
      if cur.isEmpty then wsTokensGo rest [] else cur.reverse :: wsTokensGo rest []
    else wsTokensGo rest (c :: cur)

/-- Python `str.split()` with no arguments. -/
def wsTokens (cs : List Char) : List (List Char) := wsTokensGo cs []

/-- Python `str.split('\n')`: split at newlines keeping empty pieces. -/
def splitNl : List Char → List (List Char)
  | [] => [[]]
  | c :: rest =>
    if c = '\n' then [] :: splitNl rest
    else
      match splitNl rest with
      | l :: ls => (c :: l) :: ls
      | [] => [[c]]

/-- Break a character list at the first comma, if any. -/
def breakComma : List Char → List Char × Option (List Char)
  | [] => ([], none)
  | c :: rest =>
    if c = ',' then ([], some rest)
    else
      match breakComma rest with
      | (a, b) => (c :: a, b)

/-- Python `str.split(',', 2)`: at most two splits, at most three parts. -/
def splitC2 (cs : List Char) : List (List Char) :=
  match breakComma cs with
  | (p0, none) => [p0]
  | (p0, some r1) =>
    match breakComma r1 with
    | (p1, none) => [p0, p1]
    | (p1, some r2) => [p0, p1, r2]

/-- Whether `pre` is an initial segment of `l`. -/
def startsWithL : List Char → List Char → Bool
  | [], _ => true
  | _ :: _, [] => false
  | p :: ps, c :: cs => (p == c) && startsWithL ps cs

/-- Python `needle in haystack` on strings: substring containment. -/
def containsSubL (needle : List Char) : List Char → Bool
  | [] => startsWithL needle []
  | c :: rest => startsWithL needle (c :: rest) || containsSubL needle rest

/-- Numeric value of a list of ASCII digits, as Python `int` on a digit string. -/
def natOfDigits (cs : List Char) : ℕ :=
  cs.foldl (fun a c => 10 * a + (c.toNat - 48)) 0

/-- Decimal digit to ASCII character. -/
def digitChar (d : ℕ) : Char := Char.ofNat (48 + d)

/-- Digit characters of `n`, most significant first (fuel-driven). -/
def natStrCore : ℕ → ℕ → List Char → List Char
  | 0, _, acc => acc
  | fuel + 1, n, acc =>
    if n = 0 then acc else natStrCore fuel (n / 10) (digitChar (n % 10) :: acc)

/-- Python `str(n)` for a natural number. -/
def natStrL (n : ℕ) : List Char := if n = 0 then ['0'] else natStrCore (n + 1) n []

/-- Python `str(z)` for an integer. -/
def intStrL (z : ℤ) : List Char :=
  if z < 0 then '-' :: natStrL z.natAbs else natStrL z.natAbs

/-! ### `float(s)`: Python float parsing (decimal numerals) -/

/-- Parse an unsigned decimal numeral `digits [. digits] [e[±]digits]`.
The mantissa is accumulated as an integer with a decimal scale. -/
def parseUnsignedQ (cs : List Char) : Option ℚ :=
  let ip := cs.takeWhile Char.isDigit
  let r1 := cs.dropWhile Char.isDigit
  match r1 with
  | [] => if ip.isEmpty then none else some (mkRat (natOfDigits ip) 1)
  | c :: r2 =>
    if c = '.' then
      let fp := r2.takeWhile Char.isDigit
      let r3 := r2.dropWhile Char.isDigit
      if ip.isEmpty ∧ fp.isEmpty then none
      else
        let m : ℤ := natOfDigits ip * 10 ^ fp.length + natOfDigits fp
        match r3 with
        | [] => some (Rat.divInt m ((10 : ℤ) ^ fp.length))
        | e :: r4 =>
          if e = 'e' ∨ e = 'E' then
            match r4 with
            | '+' :: r5 =>
              let ed := r5.takeWhile Char.isDigit
              if ed.isEmpty ∨ ¬(r5.dropWhile Char.isDigit).isEmpty then none
              else some (Rat.divInt (m * 10 ^ natOfDigits ed) ((10 : ℤ) ^ fp.length))
            | '-' :: r5 =>
              let ed := r5.takeWhile Char.isDigit
              if ed.isEmpty ∨ ¬(r5.dropWhile Char.isDigit).isEmpty then none
              else some (Rat.divInt m ((10 : ℤ) ^ fp.length * 10 ^ natOfDigits ed))
            | r5 =>
              let ed := r5.takeWhile Char.isDigit
              if ed.isEmpty ∨ ¬(r5.dropWhile Char.isDigit).isEmpty then none
              else some (Rat.divInt (m * 10 ^ natOfDigits ed) ((10 : ℤ) ^ fp.length))
          else none
    else if c = 'e' ∨ c = 'E' then
      if ip.isEmpty then none
      else
        let m : ℤ := natOfDigits ip
        match r2 with
        | '+' :: r5 =>
          let ed := r5.takeWhile Char.isDigit
          if ed.isEmpty ∨ ¬(r5.dropWhile Char.isDigit).isEmpty then none
          else some (mkRat (natOfDigits ip * 10 ^ natOfDigits ed) 1)
        | '-' :: r5 =>
          let ed := r5.takeWhile Char.isDigit
          if ed.isEmpty ∨ ¬(r5.dropWhile Char.isDigit).isEmpty then none
          else some (Rat.divInt m ((10 : ℤ) ^ natOfDigits ed))
        | r5 =>
          let ed := r5.takeWhile Char.isDigit
          if ed.isEmpty ∨ ¬(r5.dropWhile Char.isDigit).isEmpty then none
          else some (mkRat (natOfDigits ip * 10 ^ natOfDigits ed) 1)
    else none

/-- Python `float(s)` on the decimal-numeral fragment: optional surrounding
whitespace, optional sign, digits with optional fraction and exponent.
`inf`/`nan` and underscore separators are not modelled. -/
def parsePyFloat? (s : String) : Option ℚ :=
  let cs := stripWsL s.data
  match cs with
  | '+' :: rest => parseUnsignedQ rest
  | '-' :: rest => (parseUnsignedQ rest).map (fun q => -q)
  | rest => parseUnsignedQ rest

/-! ### Regular-expression fragments used by `update_cameras.py` -/

/-- `re.search('(\\d+)', s)`: value of the leftmost run of digits, if any
(`download_speed_from_osm`). -/
def firstDigitRun? : List Char → Option ℕ
  | [] => none
  | c :: rest =>
    if c.isDigit then some (natOfDigits ((c :: rest).takeWhile Char.isDigit))
    else firstDigitRun? rest

/-- One anchored attempt of `(\\d{2,3})\\s*(?:mph|MPH)` at the head of `cs`,
taking `k` digits. -/
def mphTryLen (k : ℕ) (cs : List Char) : Option ℕ :=
  let ds := cs.take k
  if ds.length = k ∧ ds.all Char.isDigit then
    let rest := (cs.drop k).dropWhile isPyWs
    if startsWithL "mph".data rest ∨ startsWithL "MPH".data rest then
      some (natOfDigits ds)
    else none
  else none

/-- Anchored `(\\d{2,3})\\s*(?:mph|MPH)`: greedy, three digits before two. -/
def mphAt (cs : List Char) : Option ℕ :=
  match mphTryLen 3 cs with
  | some n => some n
  | none => mphTryLen 2 cs

/-- `re.search('(\\d{2,3})\\s*(?:mph|MPH)', s)`: leftmost match
(`parse_poi_factory_csv`). -/
def mphSearch : List Char → Option ℕ
  | [] => none
  | c :: rest =>
    match mphAt (c :: rest) with
    | some n => some n
    | none => mphSearch rest

/-! ### JSON rendering (shape of `json.dumps` on the records produced) -/

/-- Digits of the fractional part: left-pad to six and trim trailing zeros. -/
def fracDigits (frac : ℕ) : List Char :=
  let padded := List.replicate (6 - (natStrL frac).length) '0' ++ natStrL frac
  (padded.reverse.dropWhile (· = '0')).reverse

/-- Python `repr(float)` for a value equal to `n / 10^6` exactly (every
coordinate in a record was rounded to six places). -/
def renderScaledL (n : ℤ) : List Char :=
  let sgn : List Char := if n < 0 then ['-'] else []
  let m := n.natAbs
  let fr := fracDigits (m % 1000000)
  sgn ++ natStrL (m / 1000000) ++ '.' :: (if fr.isEmpty then ['0'] else fr)

/-- JSON rendering of a float field value. -/
def renderFloatL (q : ℚ) : List Char := renderScaledL (rhe (qmul q (mkRat 1000000 1)))

/-- Join pre-rendered pieces with a separator between adjacent pieces. -/
def joinSep (sep : List Char) : List (List Char) → List Char
  | [] => []
  | [x] => x
  | x :: y :: rest => x ++ sep ++ joinSep sep (y :: rest)

/-- Opening brace character (ASCII 123). -/
def obr : Char := Char.ofNat 123

/-- Closing brace character (ASCII 125). -/
def cbr : Char := Char.ofNat 125

/-- `json.dumps` on a flat object with pre-rendered field values:
`itemSep` between members and `kvSep` after each key. -/
def mkObjL (itemSep kvSep : List Char) (fields : List (List Char × List Char)) : List Char :=
  obr :: (joinSep itemSep
    (fields.map (fun p => '\x22' :: p.1 ++ '\x22' :: kvSep ++ p.2))) ++ [cbr]

/-- `json.dumps` on a list of integers with `itemSep` between elements. -/
def renderIntArrL (itemSep : List Char) (l : List ℤ) : List Char :=
  '[' :: joinSep itemSep (l.map intStrL) ++ [']']

/-! ### Data model -/

/-- A raw element of an Overpass JSON payload. `lat`/`lon`/`center` are
`none` when the corresponding key is absent; `center` holds the optional
`lat`/`lon` entries of the `center` sub-dictionary. -/
structure OsmElement where
  type : String
  lat : Option ℚ := none
  lon : Option ℚ := none
  center : Option (Option ℚ × Option ℚ) := none
  tags : List (String × String) := []
  deriving DecidableEq

/-- `tags.get(k, d)` on the modelled tag dictionary. -/
def tagsGetD (tags : List (String × String)) (k d : String) : String :=
  match tags.lookup k with
  | some v => v
  | none => d

/-- `tags.get(k)` (no default). -/
def tagsGet? (tags : List (String × String)) (k : String) : Option String := tags.lookup k

/-- A camera record as built by the Python scripts (a dict with keys
`lat`, `lon`, `flg` and optional `spd`, `unt`, `dir`). `flg` is `0` only
transiently, for `parse_poi_factory_csv` output before its caller assigns
the category flag. -/
structure Cam where
  lat : ℚ
  lon : ℚ
  flg : ℕ := 0
  spd : Option ℕ := none
  unt : Option String := none
  dir : Option (List ℤ) := none
  deriving DecidableEq

/-- Decidable equality on `Except`, by cases on the two constructors. -/
def exceptDecEq {ε α : Type} [DecidableEq ε] [DecidableEq α] :
    (a b : Except ε α) → Decidable (a = b)
  | .error e1, .error e2 =>
    if h : e1 = e2 then .isTrue (congrArg Except.error h)
    else .isFalse (fun hc => h (Except.error.injEq e1 e2 ▸ hc))
  | .ok v1, .ok v2 =>
    if h : v1 = v2 then .isTrue (congrArg Except.ok h)
    else .isFalse (fun hc => h (Except.ok.injEq v1 v2 ▸ hc))
  | .error _, .ok _ => .isFalse (fun hc => Except.noConfusion hc)
  | .ok _, .error _ => .isFalse (fun hc => Except.noConfusion hc)

instance {ε α : Type} [DecidableEq ε] [DecidableEq α] : DecidableEq (Except ε α) :=
  exceptDecEq

/-- Outcome of one HTTP fetch, as distinguished by the scripts'
exception handlers. -/
inductive FetchResult (α : Type) where
  | ok (payload : α)
  | timeout
  | httpError (status : ℕ)
  | netError
  deriving DecidableEq

/-! ### `tools/download_cameras.py` -/

/-- Camera type flags of `download_cameras.py` (matches `camera_manager.h`). -/
def CAMERA_FLAG_REDLIGHT : ℕ := 1

/-- Speed-camera flag of `download_cameras.py`. -/
def CAMERA_FLAG_SPEED : ℕ := 2

/-- Combined red-light and speed flag of `download_cameras.py`. -/
def CAMERA_FLAG_REDLIGHT_SPEED : ℕ := 3

/-- ALPR flag of `download_cameras.py`. -/
def CAMERA_FLAG_ALPR : ℕ := 4

/-- Coordinate extraction of `parse_osm_element`: a node reads
`element['lat']`/`element['lon']` directly (a `KeyError` if absent), a way
with a `center` reads `center['lat']`/`center['lon']`, anything else
returns `None` (the element is skipped). -/
def coordsOf (el : OsmElement) : Except Unit (Option (ℚ × ℚ)) :=
  if el.type = "node" then
    match el.lat, el.lon with
    | some la, some lo => .ok (some (la, lo))
    | _, _ => .error ()
  else if el.type = "way" then
    match el.center with
    | some (some la, some lo) => .ok (some (la, lo))
    | some _ => .error ()
    | none => .ok none
  else .ok none

/-- Camera-type derivation of `parse_osm_element`: surveillance tag, then
red-light evidence, then `highway=speed_camera` (possibly also red light),
defaulting to the speed flag. -/
def flagOf (tags : List (String × String)) : ℕ :=
  let surveillance : String := ⟨(tagsGetD tags "surveillance:type" "").data.map Char.toUpper⟩
  let highway := tagsGetD tags "highway" ""
  let enforcement := tagsGetD tags "enforcement" ""
  if surveillance = "ALPR" then CAMERA_FLAG_ALPR
  else if enforcement = "traffic_signals" ∨ tagsGet? tags "camera" = some "yes" then
    CAMERA_FLAG_REDLIGHT
  else if highway = "speed_camera" then
    if containsSubL "red_light".data (tagsGetD tags "enforcement" "").data then
      CAMERA_FLAG_REDLIGHT_SPEED
    else CAMERA_FLAG_SPEED
  else CAMERA_FLAG_SPEED

/-- Speed-limit extraction of `parse_osm_element`: if `maxspeed` is a
non-empty string, take the first whitespace token and keep every digit
character of it; `int` of the digit string is the speed, and a `km`
substring of the lowercased field marks `unt = 'kmh'`. An empty token list
(`IndexError`) or an empty digit string (`ValueError`) leaves both absent. -/
def spdUntOf (tags : List (String × String)) : Option ℕ × Option String :=
  let maxspeed := tagsGetD tags "maxspeed" ""
  if maxspeed = "" then (none, none)
  else
    match wsTokens maxspeed.data with
    | [] => (none, none)
    | t :: _ =>
      let ds := t.filter Char.isDigit
      if ds.isEmpty then (none, none)
      else
        (some (natOfDigits ds),
         if containsSubL "km".data (maxspeed.data.map Char.toLower) then some "kmh" else none)

/-- Cardinal-direction table of `parse_osm_element`. -/
def cardinalOf (s : String) : Option ℤ :=
  if s = "N" then some 0
  else if s = "NE" then some 45
  else if s = "E" then some 90
  else if s = "SE" then some 135
  else if s = "S" then some 180
  else if s = "SW" then some 225
  else if s = "W" then some 270
  else if s = "NW" then some 315
  else none

/-- Direction extraction of `parse_osm_element`: `direction` falling back to
`camera:direction`; `int(float(v))` accepted when in `[0, 360]` (inclusive),
otherwise the cardinal table on the uppercased value; anything else is
dropped silently. -/
def dirOf (tags : List (String × String)) : Option (List ℤ) :=
  let direction := tagsGetD tags "direction" (tagsGetD tags "camera:direction" "")
  if direction = "" then none
  else
    match parsePyFloat? direction with
    | some q =>
      let v := qtrunc q
      if 0 ≤ v ∧ v ≤ 360 then some [v] else none
    | none =>
      match cardinalOf ⟨direction.data.map Char.toUpper⟩ with
      | some n => some [n]
      | none => none

/-- `parse_osm_element(element, camera_types)` of `download_cameras.py`
(the `camera_types` parameter is unused by its body). -/
def parseOsmElement (el : OsmElement) : Except Unit (Option Cam) :=
  match coordsOf el with
  | .error e => .error e
  | .ok none => .ok none
  | .ok (some (la, lo)) =>
    .ok (some
      { lat := roundDec 6 la
        lon := roundDec 6 lo
        flg := flagOf el.tags
        spd := (spdUntOf el.tags).1
        unt := (spdUntOf el.tags).2
        dir := dirOf el.tags })

/-- The normalization loop of `download_cameras`: parse every element,
keep the non-`None` records; an uncaught `KeyError` aborts. -/
def dlNormalize : List OsmElement → Except Unit (List Cam)
  | [] => .ok []
  | el :: rest =>
    match parseOsmElement el with
    | .error e => .error e
    | .ok r =>
      match dlNormalize rest with
      | .error e => .error e
      | .ok rs =>
        match r with
        | none => .ok rs
        | some cam => .ok (cam :: rs)

/-- Dedup key of `download_cameras`: coordinates rounded to four decimal
places together with the flag. -/
def dlKey (c : Cam) : ℚ × ℚ × ℕ := (roundDec 4 c.lat, roundDec 4 c.lon, c.flg)

/-- First-seen deduplication over a key-extraction function, carrying the
`seen` set, as both scripts implement it. -/
def dedupFold {κ α : Type} [DecidableEq κ] (f : α → Option (κ × Cam)) :
    List κ → List α → List Cam
  | _, [] => []
  | seen, x :: rest =>
    match f x with
    | none => dedupFold f seen rest
    | some (k, c) =>
      if k ∈ seen then dedupFold f seen rest
      else c :: dedupFold f (k :: seen) rest

/-- The dedup loop of `download_cameras` (lines 199–207). -/
def dlDedup (cams : List Cam) : List Cam :=
  dedupFold (fun c => some (dlKey c, c)) [] cams

/-- `download_cameras(camera_types, state)` after the fetch: a timeout or a
request exception calls `sys.exit(1)`; otherwise parse and dedup. -/
def dlDownloadCameras (r : FetchResult (List OsmElement)) : Except ℕ (List Cam) :=
  match r with
  | .ok els =>
    match dlNormalize els with
    | .error _ => .error 1
    | .ok cams => .ok (dlDedup cams)
  | .timeout => .error 1
  | .httpError _ => .error 1
  | .netError => .error 1

/-- The `US_STATES` table of `download_cameras.py`. -/
def usStates : List (String × String) :=
  [("AL", "Alabama"), ("AK", "Alaska"), ("AZ", "Arizona"), ("AR", "Arkansas"),
   ("CA", "California"), ("CO", "Colorado"), ("CT", "Connecticut"), ("DE", "Delaware"),
   ("FL", "Florida"), ("GA", "Georgia"), ("HI", "Hawaii"), ("ID", "Idaho"),
   ("IL", "Illinois"), ("IN", "Indiana"), ("IA", "Iowa"), ("KS", "Kansas"),
   ("KY", "Kentucky"), ("LA", "Louisiana"), ("ME", "Maine"), ("MD", "Maryland"),
   ("MA", "Massachusetts"), ("MI", "Michigan"), ("MN", "Minnesota"), ("MS", "Mississippi"),
   ("MO", "Missouri"), ("MT", "Montana"), ("NE", "Nebraska"), ("NV", "Nevada"),
   ("NH", "New Hampshire"), ("NJ", "New Jersey"), ("NM", "New Mexico"), ("NY", "New York"),
   ("NC", "North Carolina"), ("ND", "North Dakota"), ("OH", "Ohio"), ("OK", "Oklahoma"),
   ("OR", "Oregon"), ("PA", "Pennsylvania"), ("RI", "Rhode Island"), ("SC", "South Carolina"),
   ("SD", "South Dakota"), ("TN", "Tennessee"), ("TX", "Texas"), ("UT", "Utah"),
   ("VT", "Vermont"), ("VA", "Virginia"), ("WA", "Washington"), ("WV", "West Virginia"),
   ("WI", "Wisconsin"), ("WY", "Wyoming"), ("DC", "District of Columbia")]

/-- Python `s.upper()` for the state codes. -/
def upperStr (s : String) : String := ⟨s.data.map Char.toUpper⟩

/-- The field list of a `download_cameras.py` record dict, in insertion
order: `lat`, `lon`, `flg`, then the optional `spd`, `unt`, `dir`. -/
def dlFields (c : Cam) : List (List Char × List Char) :=
  [("lat".data, renderFloatL c.lat), ("lon".data, renderFloatL c.lon),
   ("flg".data, natStrL c.flg)]
  ++ (match c.spd with | some s => [("spd".data, natStrL s)] | none => [])
  ++ (match c.unt with | some u => [("unt".data, '\x22' :: u.data ++ ['\x22'])] | none => [])
  ++ (match c.dir with | some l => [("dir".data, renderIntArrL ", ".data l)] | none => [])

/-- `json.dumps(cam)` in `save_ndjson`: Python's default separators insert a
space after each comma and colon. -/
def dlLineL (c : Cam) : List Char := mkObjL ", ".data ": ".data (dlFields c)

/-- The `type_names` list of `save_ndjson`. -/
def dlTypeNames (cts : List String) : List String :=
  (if "alpr" ∈ cts then ["ALPR"] else [])
  ++ (if "redlight" ∈ cts then ["Red Light"] else [])
  ++ (if "speed" ∈ cts then ["Speed"] else [])

/-- The `area_name` of `save_ndjson`: the state's full name when the state
argument is truthy (non-empty) and known, else `US`. -/
def dlAreaName (state : Option String) : String :=
  match state with
  | none => "US"
  | some s =>
    if s = "" then "US"
    else
      match usStates.lookup (upperStr s) with
      | some nm => nm
      | none => "US"

/-- The `_meta` header line of `save_ndjson`: a nested object rendered by
`json.dumps` with default separators; it embeds the run date. -/
def dlMetaLine (cts : List String) (state : Option String) (date : String) (count : ℕ) :
    List Char :=
  let nameVal := "OSM ".data ++ (List.intercalate "/".data ((dlTypeNames cts).map String.data))
    ++ " (".data ++ (dlAreaName state).data ++ [')']
  let inner := mkObjL ", ".data ": ".data
    [("name".data, '\x22' :: nameVal ++ ['\x22']),
     ("date".data, '\x22' :: date.data ++ ['\x22']),
     ("count".data, natStrL count),
     ("source".data, '\x22' :: "OpenStreetMap via Overpass API".data ++ ['\x22'])]
  mkObjL ", ".data ": ".data [("_meta".data, inner)]

/-- The camera lines of `save_ndjson`, each terminated by a newline. -/
def dlBodyL (cams : List Cam) : List Char :=
  (cams.map (fun c => dlLineL c ++ ['\n'])).flatten

/-- `save_ndjson(cameras, path, camera_types, state)`: the bytes written —
the `_meta` line (which embeds `datetime.now()`'s date) followed by one
record per line. -/
def dlSaveContent (cams : List Cam) (cts : List String) (state : Option String)
    (date : String) : String :=
  ⟨dlMetaLine cts state date cams.length ++ '\n' :: dlBodyL cams⟩

/-- The CLI camera-type selector. -/
inductive CamSel where
  | all
  | alpr
  | redlight
  | speed
  deriving DecidableEq

/-- `camera_types` derived from `--type` in both scripts' `main`. -/
def ctsOf : CamSel → List String
  | .all => ["alpr", "redlight", "speed"]
  | .alpr => ["alpr"]
  | .redlight => ["redlight"]
  | .speed => ["speed"]

/-- The state-code validation of `main` in `download_cameras.py`:
`if args.state and args.state.upper() not in US_STATES` — a truthy
(non-empty) unknown code is invalid; an absent or empty one is not. -/
def dlStateInvalid (state : Option String) : Bool :=
  match state with
  | some s => (!(s == "")) && (usStates.lookup (upperStr s)).isNone
  | none => false

/-- `main()` of `download_cameras.py`: a truthy unknown state code exits
with code 1 before any network call; the fetch may exit fatally; an empty
camera set exits with code 1; otherwise the output file is written. -/
def dlMain (r : FetchResult (List OsmElement)) (sel : CamSel) (state : Option String)
    (date : String) : Except ℕ String :=
  if dlStateInvalid state then .error 1
  else
    match dlDownloadCameras r with
    | .error e => .error e
    | .ok cams =>
      if cams = [] then .error 1
      else .ok (dlSaveContent cams (ctsOf sel) state date)

/-! ### `tools/update_cameras.py` -/

/-- Python truthiness of `el.get('lat')`: `None` and `0.0` are both falsy
(`if not lat or not lon: continue`). -/
def truthy (o : Option ℚ) : Option ℚ :=
  match o with
  | some q => if q = 0 then none else some q
  | none => none

/-- The `f'…:.5f,…:.5f'` dedup key of the `update_cameras.py` normalizers:
coordinates rounded to five decimal places (string formatting is injective
on these values up to the sign of zero, which no claim exercises). -/
def key5 (la lo : ℚ) : ℚ × ℚ := (roundDec 5 la, roundDec 5 lo)

/-- One element of `download_alpr_from_osm`'s loop: raw `lat`/`lon` must be
truthy; the record carries flag 8192 (bit 13 = ALPR). -/
def alprElem (el : OsmElement) : Option ((ℚ × ℚ) × Cam) :=
  match truthy el.lat, truthy el.lon with
  | some la, some lo =>
    some (key5 la lo, { lat := roundDec 6 la, lon := roundDec 6 lo, flg := 8192 })
  | _, _ => none

/-- `download_alpr_from_osm`'s normalization loop over the payload. -/
def alprNormalize (els : List OsmElement) : List Cam := dedupFold alprElem [] els

/-- One element of `download_redlight_from_osm`'s loop: a relation with a
`center` reads the center coordinates, otherwise `el.get('lat'/'lon')`;
flag 2 (bit 1 = red light). -/
def rlElem (el : OsmElement) : Option ((ℚ × ℚ) × Cam) :=
  let co : Option ℚ × Option ℚ :=
    if el.type = "relation" then
      match el.center with
      | some c => c
      | none => (el.lat, el.lon)
    else (el.lat, el.lon)
  match truthy co.1, truthy co.2 with
  | some la, some lo =>
    some (key5 la lo, { lat := roundDec 6 la, lon := roundDec 6 lo, flg := 2 })
  | _, _ => none

/-- `download_redlight_from_osm`'s normalization loop. -/
def rlNormalize (els : List OsmElement) : List Cam := dedupFold rlElem [] els

/-- Speed-limit extraction of `download_speed_from_osm`:
`re.search('(\\d+)', maxspeed)` on a truthy `maxspeed` tag. -/
def updOsmSpd (tags : List (String × String)) : Option ℕ :=
  let ms := tagsGetD tags "maxspeed" ""
  if ms = "" then none else firstDigitRun? ms.data

/-- One element of `download_speed_from_osm`'s loop: truthy `lat`/`lon`,
flag 1 (bit 0 = speed), optional `spd` from `maxspeed`. -/
def spElem (el : OsmElement) : Option ((ℚ × ℚ) × Cam) :=
  match truthy el.lat, truthy el.lon with
  | some la, some lo =>
    some (key5 la lo,
      { lat := roundDec 6 la, lon := roundDec 6 lo, flg := 1, spd := updOsmSpd el.tags })
  | _, _ => none

/-- `download_speed_from_osm`'s normalization loop. -/
def spNormalize (els : List OsmElement) : List Cam := dedupFold spElem [] els

/-- One line of `parse_poi_factory_csv`: skip blank and `#` lines, split at
the first two commas, parse `lon,lat` as floats (a `ValueError` skips the
line), validate the coordinate bounds, dedup at five decimal places, and
extract an optional `NN[N] mph` speed from the name column. -/
def poiLineParsed (ln : List Char) : Option ((ℚ × ℚ) × Cam) :=
  let l := stripWsL ln
  if l.isEmpty ∨ l.head? = some '#' then none
  else
    match splitC2 l with
    | p0 :: p1 :: ps =>
      match parsePyFloat? ⟨stripQL (stripWsL p0)⟩, parsePyFloat? ⟨stripQL (stripWsL p1)⟩ with
      | some lon, some lat =>
        if -180 ≤ lon ∧ lon ≤ 180 ∧ -90 ≤ lat ∧ lat ≤ 90 then
          some (key5 lat lon,
            { lat := roundDec 6 lat
              lon := roundDec 6 lon
              spd := match ps with
                | [] => none
                | p2 :: _ => mphSearch (stripQL (stripWsL p2)) })
        else none
      | _, _ => none
    | _ => none

/-- `parse_poi_factory_csv(content)`: strip the content, split into lines,
and run the per-line parser under the shared `seen` set. The records carry
no `flg` yet (the callers assign it). -/
def parsePoiFactoryCsv (content : String) : List Cam :=
  dedupFold poiLineParsed [] (splitNl (stripWsL content.data))

/-- A fetcher of `update_cameras.py`: every failure path is caught and
yields the empty list. -/
def fetchCams {α : Type} (norm : α → List Cam) : FetchResult α → List Cam
  | .ok p => norm p
  | .timeout => []
  | .httpError _ => []
  | .netError => []

/-- `download_redlight_from_poi_factory`: parse the CSV then assign
`cam['flg'] = 2` to every record. -/
def rlPoiCams (r : FetchResult String) : List Cam :=
  fetchCams (fun s => (parsePoiFactoryCsv s).map (fun c => { c with flg := 2 })) r

/-- `download_speed_from_poi_factory`: parse the CSV then assign
`cam['flg'] = 1`. -/
def spPoiCams (r : FetchResult String) : List Cam :=
  fetchCams (fun s => (parsePoiFactoryCsv s).map (fun c => { c with flg := 1 })) r

/-- The upstream responses a single `update_cameras.py` run can observe. -/
structure UpdEnv where
  alpr : FetchResult (List OsmElement)
  rlOsm : FetchResult (List OsmElement)
  rlPoi : FetchResult String
  spOsm : FetchResult (List OsmElement)
  spPoi : FetchResult String

/-- Camera list with the provenance `main` knows it by (OSM primary or POI
Factory fallback); the provenance fixes the dict-key order of the lines. -/
inductive Sourced where
  | osm (cams : List Cam)
  | poi (cams : List Cam)
  deriving DecidableEq

/-- The cameras under a `Sourced` tag. -/
def Sourced.cams : Sourced → List Cam
  | .osm cs => cs
  | .poi cs => cs

/-- Red-light acquisition in `main`: OSM first, POI Factory fallback when
the OSM attempt yields no cameras. -/
def updRlCams (env : UpdEnv) : Sourced :=
  let o := fetchCams rlNormalize env.rlOsm
  if o = [] then .poi (rlPoiCams env.rlPoi) else .osm o

/-- Speed acquisition in `main`: OSM first, POI Factory fallback. -/
def updSpCams (env : UpdEnv) : Sourced :=
  let o := fetchCams spNormalize env.spOsm
  if o = [] then .poi (spPoiCams env.spPoi) else .osm o

/-- ALPR acquisition in `main` (no fallback source is configured). -/
def updAlprCams (env : UpdEnv) : List Cam := fetchCams alprNormalize env.alpr

/-- `json.dumps(cam, separators=(',', ':'))` for a record whose dict was
built as `lat`, `lon`, `flg` (the ALPR and red-light OSM normalizers). -/
def updOsmPlainLineL (c : Cam) : List Char :=
  mkObjL [','] [':']
    [("lat".data, renderFloatL c.lat), ("lon".data, renderFloatL c.lon),
     ("flg".data, natStrL c.flg)]

/-- Minified line for a record built as `lat`, `lon`, `flg`, then an
optional `spd` (the speed OSM normalizer). -/
def updOsmSpeedLineL (c : Cam) : List Char :=
  mkObjL [','] [':']
    ([("lat".data, renderFloatL c.lat), ("lon".data, renderFloatL c.lon),
      ("flg".data, natStrL c.flg)]
     ++ (match c.spd with | some s => [("spd".data, natStrL s)] | none => []))

/-- Minified line for a CSV-sourced record: the dict was built as `lat`,
`lon`, optional `spd`, and the caller appended `flg` last. -/
def updCsvLineL (c : Cam) : List Char :=
  mkObjL [','] [':']
    ([("lat".data, renderFloatL c.lat), ("lon".data, renderFloatL c.lon)]
     ++ (match c.spd with | some s => [("spd".data, natStrL s)] | none => [])
     ++ [("flg".data, natStrL c.flg)])

/-- `save_cameras(cameras, filepath, cam_type)`: nothing is written for an
empty list (`return False`); otherwise one minified JSON line per record. -/
def saveCameras (lineOf : Cam → List Char) (cams : List Cam) : Option String :=
  if cams = [] then none
  else some ⟨(cams.map (fun c => lineOf c ++ ['\n'])).flatten⟩

/-- The `alpr.json` bytes of a run, if written. -/
def updAlprFile (env : UpdEnv) : Option String :=
  saveCameras updOsmPlainLineL (updAlprCams env)

/-- The `redlight_cam.json` bytes of a run, if written. -/
def updRlFile (env : UpdEnv) : Option String :=
  match updRlCams env with
  | .osm cs => saveCameras updOsmPlainLineL cs
  | .poi cs => saveCameras updCsvLineL cs

/-- The `speed_cam.json` bytes of a run, if written. -/
def updSpFile (env : UpdEnv) : Option String :=
  match updSpCams env with
  | .osm cs => saveCameras updOsmSpeedLineL cs
  | .poi cs => saveCameras updCsvLineL cs

/-- Whether `main` runs the ALPR section under this `--type`. -/
def wantAlpr : CamSel → Bool
  | .all => true
  | .alpr => true
  | _ => false

/-- Whether `main` runs the red-light section. -/
def wantRl : CamSel → Bool
  | .all => true
  | .redlight => true
  | _ => false

/-- Whether `main` runs the speed section. -/
def wantSp : CamSel → Bool
  | .all => true
  | .speed => true
  | _ => false

/-- Result of one `update_cameras.py` run: the three output files (absent
when not requested or empty) and the process exit code. The run date only
reaches log lines, never the files. -/
structure UpdResult where
  alprFile : Option String
  rlFile : Option String
  spFile : Option String
  exitCode : ℕ
  deriving DecidableEq

/-- `main()` of `update_cameras.py`: run the requested sections, count the
written files, and exit 0 exactly when at least one file was written. -/
def updRun (env : UpdEnv) (sel : CamSel) (date : String) : UpdResult :=
  let _ := date
  let aF := if wantAlpr sel then updAlprFile env else none
  let rF := if wantRl sel then updRlFile env else none
  let sF := if wantSp sel then updSpFile env else none
  let succ := [aF, rF, sF].countP Option.isSome
  { alprFile := aF, rlFile := rF, spFile := sF
    exitCode := if 0 < succ then 0 else 1 }

/-! ### Concrete inputs used by the claim theorems -/

/-- Scenario A, first element: `(34.05223, -118.24368)`. -/
def eA1 : OsmElement :=
  { type := "node", lat := some (mkRat 3405223 100000), lon := some (mkRat (-11824368) 100000) }

/-- Scenario A, second element: `(34.05224, -118.24369)`. -/
def eA2 : OsmElement :=
  { type := "node", lat := some (mkRat 3405224 100000), lon := some (mkRat (-11824369) 100000) }

/-- A node with latitude 200 (out of the valid range) and longitude 10. -/
def e200 : OsmElement :=
  { type := "node", lat := some (mkRat 200 1), lon := some (mkRat 10 1) }

/-- Following the spec's words: "locate the first run of digits within a
unit-bearing string field" — the value of the leftmost maximal digit run. -/
def specFirstRunOfDigits : List Char → Option ℕ
  | [] => none
  | c :: rest =>
    if c.isDigit then some (natOfDigits ((c :: rest).takeWhile Char.isDigit))
    else specFirstRunOfDigits rest

/-! ### Character-set lemmas for the Claim C8 serializers -/

/-- The characters that can occur in a minified `update_cameras.py` record
line: digits, number punctuation, JSON punctuation, and the letters of the
keys `lat`, `lon`, `flg`, `spd`. -/
def updLineChar (c : Char) : Bool :=
  c.isDigit ∨ c ∈ ['-', '.', ',', ':', '\x22', obr, cbr, 'l', 'a', 't', 'o', 'n', 'f', 'g', 's', 'p', 'd']

/-! ## Theorems -/

theorem qmul_eq (a b : ℚ) : qmul a b = a * b := by
  rw [qmul, Rat.divInt_eq_div]
  push_cast
  conv_rhs => rw [← Rat.num_div_den a, ← Rat.num_div_den b]
  rw [div_mul_div_comm]

theorem qsub_eq (a b : ℚ) : qsub a b = a - b := by
  have ha : ((a.den : ℚ)) ≠ 0 := by
    exact_mod_cast a.den_nz
  have hb : ((b.den : ℚ)) ≠ 0 := by
    exact_mod_cast b.den_nz
  rw [qsub, Rat.divInt_eq_div]
  push_cast
  conv_rhs => rw [← Rat.num_div_den a, ← Rat.num_div_den b]
  rw [div_sub_div _ _ ha hb]
  ring_nf

theorem ratFloor_eq_floor (q : ℚ) : q.floor = ⌊q⌋ := by
  rw [Rat.floor_def' q, Rat.floor_def]

theorem mkRat_half : (mkRat 1 2 : ℚ) = 1/2 := by
  rw [Rat.mkRat_eq_div]
  norm_num

theorem rhe_eq (q : ℚ) : rhe q =
    (if q - (⌊q⌋ : ℚ) < 1/2 then ⌊q⌋
     else if 1/2 < q - (⌊q⌋ : ℚ) then ⌊q⌋ + 1
     else if ⌊q⌋ % 2 = 0 then ⌊q⌋ else ⌊q⌋ + 1) := by
  simp only [rhe, qsub_eq, mkRat_half, ratFloor_eq_floor]

theorem roundDec_eq (d : ℕ) (q : ℚ) :
    roundDec d q = ((rhe (q * 10 ^ d) : ℤ) : ℚ) / ((10 : ℚ) ^ d) := by
  unfold roundDec
  rw [qmul_eq, Rat.divInt_eq_div]
  push_cast
  ring

theorem floor_le_rhe (q : ℚ) : ⌊q⌋ ≤ rhe q := by
  rw [rhe_eq]
  split
  · exact le_refl _
  · split
    · omega
    · split <;> omega

theorem rhe_le_ceil (q : ℚ) : rhe q ≤ ⌈q⌉ := by
  rw [rhe_eq]
  have hfc : (⌊q⌋ : ℤ) ≤ ⌈q⌉ := Int.floor_le_ceil q
  have hlt : ¬ (q - (⌊q⌋ : ℚ) < 1/2) → ⌊q⌋ + 1 ≤ ⌈q⌉ := by
    intro h
    have h1 : (⌊q⌋ : ℚ) < q := by
      have := Int.floor_le q
      nlinarith [this]
    have : (⌊q⌋ : ℤ) < ⌈q⌉ := Int.lt_ceil.mpr h1
    omega
  split
  · exact hfc
  · next h =>
    split
    · exact hlt h
    · split
      · exact hfc
      · exact hlt h

/-- Upper bound preservation: rounding a value that is at most the integer
`m` stays at most `m`. -/
theorem roundDec_le {d : ℕ} {q : ℚ} {m : ℤ} (h : q ≤ (m : ℚ)) :
    roundDec d q ≤ (m : ℚ) := by
  rw [roundDec_eq]
  have hpow : (0 : ℚ) < (10 : ℚ) ^ d := by positivity
  rw [div_le_iff₀ hpow]
  have hceil : rhe (q * 10 ^ d) ≤ ⌈q * 10 ^ d⌉ := rhe_le_ceil _
  have hle : q * 10 ^ d ≤ (m : ℚ) * 10 ^ d :=
    mul_le_mul_of_nonneg_right h (le_of_lt hpow)
  have hc2 : (⌈q * 10 ^ d⌉ : ℤ) ≤ m * 10 ^ d := by
    apply Int.ceil_le.mpr
    push_cast
    exact hle
  calc ((rhe (q * 10 ^ d) : ℤ) : ℚ) ≤ ((⌈q * 10 ^ d⌉ : ℤ) : ℚ) := by exact_mod_cast hceil
    _ ≤ ((m * 10 ^ d : ℤ) : ℚ) := by exact_mod_cast hc2
    _ = (m : ℚ) * 10 ^ d := by push_cast; ring

/-- Lower bound preservation: rounding a value that is at least the integer
`m` stays at least `m`. -/
theorem le_roundDec {d : ℕ} {q : ℚ} {m : ℤ} (h : (m : ℚ) ≤ q) :
    (m : ℚ) ≤ roundDec d q := by
  rw [roundDec_eq]
  have hpow : (0 : ℚ) < (10 : ℚ) ^ d := by positivity
  rw [le_div_iff₀ hpow]
  have hfloor : ⌊q * 10 ^ d⌋ ≥ m * 10 ^ d := by
    apply Int.le_floor.mpr
    push_cast
    exact mul_le_mul_of_nonneg_right h (le_of_lt hpow)
  have hrhe : (m * 10 ^ d : ℤ) ≤ rhe (q * 10 ^ d) := le_trans hfloor (floor_le_rhe _)
  calc (m : ℚ) * 10 ^ d = ((m * 10 ^ d : ℤ) : ℚ) := by push_cast; ring
    _ ≤ ((rhe (q * 10 ^ d) : ℤ) : ℚ) := by exact_mod_cast hrhe

/-! ### Helper lemmas about the dedup fold -/

theorem dedupFold_nil {κ α : Type} [DecidableEq κ] (f : α → Option (κ × Cam))
    (seen : List κ) : dedupFold f seen [] = [] := rfl

theorem dedupFold_skip {κ α : Type} [DecidableEq κ] (f : α → Option (κ × Cam))
    (seen : List κ) (x : α) (rest : List α) (h : f x = none) :
    dedupFold f seen (x :: rest) = dedupFold f seen rest := by
  simp [dedupFold, h]

theorem dedupFold_cons_some {κ α : Type} [DecidableEq κ] (f : α → Option (κ × Cam))
    (seen : List κ) (x : α) (rest : List α) (k : κ) (c0 : Cam) (h : f x = some (k, c0)) :
    dedupFold f seen (x :: rest) =
      (if k ∈ seen then dedupFold f seen rest else c0 :: dedupFold f (k :: seen) rest) := by
  simp [dedupFold, h]

/-- Every record emitted by the dedup fold comes from some input element. -/
theorem dedupFold_mem {κ α : Type} [DecidableEq κ] (f : α → Option (κ × Cam)) :
    ∀ (l : List α) (seen : List κ) (c : Cam), c ∈ dedupFold f seen l →
      ∃ x k, x ∈ l ∧ f x = some (k, c)
  | [], _, c, h => by simp [dedupFold] at h
  | x :: rest, seen, c, h => by
    rw [show dedupFold f seen (x :: rest) =
        (match f x with
         | none => dedupFold f seen rest
         | some (k, c0) =>
           if k ∈ seen then dedupFold f seen rest
           else c0 :: dedupFold f (k :: seen) rest) from rfl] at h
    cases hfx : f x with
    | none =>
      rw [hfx] at h
      obtain ⟨x', k', hx', hf'⟩ := dedupFold_mem f rest seen c h
      exact ⟨x', k', List.mem_cons_of_mem _ hx', hf'⟩
    | some kc =>
      obtain ⟨k, c0⟩ := kc
      simp only [hfx] at h
      by_cases hk : k ∈ seen
      · rw [if_pos hk] at h
        obtain ⟨x', k', hx', hf'⟩ := dedupFold_mem f rest seen c h
        exact ⟨x', k', List.mem_cons_of_mem _ hx', hf'⟩
      · rw [if_neg hk] at h
        rcases List.mem_cons.mp h with hc | hc
        · exact ⟨x, k, List.mem_cons_self _ _, by rw [hfx, hc]⟩
        · obtain ⟨x', k', hx', hf'⟩ := dedupFold_mem f rest (k :: seen) c hc
          exact ⟨x', k', List.mem_cons_of_mem _ hx', hf'⟩

/-- In the `download_cameras` dedup, no emitted record's key is already in
the carried `seen` set. -/
theorem dlDedupGo_key_not_seen :
    ∀ (l : List Cam) (seen : List (ℚ × ℚ × ℕ)) (c : Cam),
      c ∈ dedupFold (fun c => some (dlKey c, c)) seen l → dlKey c ∉ seen
  | [], _, c, h => by simp [dedupFold] at h
  | x :: rest, seen, c, h => by
    rw [dedupFold_cons_some (fun c => some (dlKey c, c)) seen x rest (dlKey x) x rfl] at h
    by_cases hk : dlKey x ∈ seen
    · rw [if_pos hk] at h
      exact dlDedupGo_key_not_seen rest seen c h
    · rw [if_neg hk] at h
      rcases List.mem_cons.mp h with hc | hc
      · rw [hc]; exact hk
      · have := dlDedupGo_key_not_seen rest (dlKey x :: seen) c hc
        exact fun hmem => this (List.mem_cons_of_mem _ hmem)

/-- The `download_cameras` dedup output has pairwise distinct keys. -/
theorem dlDedupGo_pairwise :
    ∀ (l : List Cam) (seen : List (ℚ × ℚ × ℕ)),
      (dedupFold (fun c => some (dlKey c, c)) seen l).Pairwise
        (fun a b => dlKey a ≠ dlKey b)
  | [], _ => by simp [dedupFold]
  | x :: rest, seen => by
    rw [dedupFold_cons_some (fun c => some (dlKey c, c)) seen x rest (dlKey x) x rfl]
    by_cases hk : dlKey x ∈ seen
    · rw [if_pos hk]
      exact dlDedupGo_pairwise rest seen
    · rw [if_neg hk]
      refine List.pairwise_cons.mpr ⟨?_, dlDedupGo_pairwise rest (dlKey x :: seen)⟩
      intro b hb hedge
      have := dlDedupGo_key_not_seen rest (dlKey x :: seen) b hb
      exact this (by rw [← hedge]; exact List.mem_cons_self _ _)

/-- Every input key class is represented in the `download_cameras` dedup
output (given that it is not already in the `seen` set). -/
theorem dlDedupGo_complete :
    ∀ (l : List Cam) (seen : List (ℚ × ℚ × ℕ)) (c : Cam), c ∈ l →
      dlKey c ∈ seen ∨
        ∃ c', c' ∈ dedupFold (fun c => some (dlKey c, c)) seen l ∧ dlKey c' = dlKey c
  | [], _, c, h => by simp at h
  | x :: rest, seen, c, h => by
    rw [dedupFold_cons_some (fun c => some (dlKey c, c)) seen x rest (dlKey x) x rfl]
    by_cases hk : dlKey x ∈ seen
    · rw [if_pos hk]
      rcases List.mem_cons.mp h with hc | hc
      · left; rw [hc]; exact hk
      · exact dlDedupGo_complete rest seen c hc
    · rw [if_neg hk]
      rcases List.mem_cons.mp h with hc | hc
      · right
        exact ⟨x, List.mem_cons_self _ _, by rw [hc]⟩
      · rcases dlDedupGo_complete rest (dlKey x :: seen) c hc with hin | ⟨c', hc', hkey⟩
        · rcases List.mem_cons.mp hin with heq | hin'
          · right; exact ⟨x, List.mem_cons_self _ _, heq.symm⟩
          · left; exact hin'
        · right; exact ⟨c', List.mem_cons_of_mem _ hc', hkey⟩

/-! ### Claim C1 -/

/-- C1 counterexample: the two Scenario-A elements, whose coordinates round
equal at four decimal places and which carry the same category, produce TWO
records in the `update_cameras.py` ALPR normalizer's output, because its
dedup key uses five decimal places (`f'\x7blat:.5f\x7d,\x7blon:.5f\x7d'`),
refuting the claim that exactly one record appears in the output. -/
theorem c1_counterexample :
    roundDec 4 (mkRat 3405223 100000) = roundDec 4 (mkRat 3405224 100000) ∧
    roundDec 4 (mkRat (-11824368) 100000) = roundDec 4 (mkRat (-11824369) 100000) ∧
    (alprNormalize [eA1, eA2]).length = 2 := by
  refine ⟨by decide, by decide, by decide⟩

/-- C1 amended: `download_cameras.py` dedups on coordinates quantized to
four decimal places joined with the category flag — its output has pairwise
distinct keys, every input key class stays represented, and the Scenario-A
pair collapses to one record there; `update_cameras.py` instead dedups on
five-decimal formatted keys, so the Scenario-A pair yields two records. -/
theorem c1_dedup_amended :
    (∀ cams : List Cam, (dlDedup cams).Pairwise (fun a b => dlKey a ≠ dlKey b)) ∧
    (∀ (cams : List Cam) (c : Cam), c ∈ cams →
      ∃ c', c' ∈ dlDedup cams ∧ dlKey c' = dlKey c) ∧
    (match dlNormalize [eA1, eA2] with
     | .ok l => (dlDedup l).length
     | .error _ => 0) = 1 ∧
    (alprNormalize [eA1, eA2]).length = 2 := by
  refine ⟨?_, ?_, by decide, by decide⟩
  · intro cams
    exact dlDedupGo_pairwise cams []
  · intro cams c hc
    rcases dlDedupGo_complete cams [] c hc with hin | hex
    · simp at hin
    · exact hex

/-- C1 witness: the amended dedup properties evaluated on the concrete
Scenario-A records. -/
theorem c1_witness :
    ∃ c', c' ∈ dlDedup
        [{ lat := mkRat 3405223 100000, lon := mkRat (-11824368) 100000, flg := 2 },
         { lat := mkRat 3405224 100000, lon := mkRat (-11824369) 100000, flg := 2 }] ∧
      dlKey c' = dlKey (Cam.mk (mkRat 3405224 100000) (mkRat (-11824369) 100000)
        2 none none none) :=
  c1_dedup_amended.2.1 _ _ (by decide)

/-! ### Claim C2 -/

/-- C2 counterexample: `parse_osm_element` has no coordinate-bounds check,
so a node with latitude 200 flows through normalization and deduplication
into the persisted output of `download_cameras.py`, refuting the claim
that out-of-range elements are dropped during normalization. -/
theorem c2_counterexample :
    dlDownloadCameras (.ok [e200]) =
      .ok [{ lat := mkRat 200 1, lon := mkRat 10 1, flg := 2 }] ∧
    ¬((mkRat 200 1 : ℚ) ≤ 90) := by
  refine ⟨by decide, by decide⟩

/-- Bounds carried by every record `parse_poi_factory_csv` accepts: the
line is kept only when `-180 ≤ lon ≤ 180` and `-90 ≤ lat ≤ 90`, checked
before the six-place rounding; the record never carries a unit. -/
theorem poiLineParsed_bounds {ln : List Char} {k : ℚ × ℚ} {c : Cam}
    (h : poiLineParsed ln = some (k, c)) :
    -90 ≤ c.lat ∧ c.lat ≤ 90 ∧ -180 ≤ c.lon ∧ c.lon ≤ 180 ∧ c.unt = none := by
  simp only [poiLineParsed] at h
  split at h
  · exact absurd h (by simp)
  · split at h
    · split at h
      · split at h
        · rename_i hbound
          obtain ⟨hb1, hb2, hb3, hb4⟩ := hbound
          simp only [Option.some.injEq, Prod.mk.injEq] at h
          obtain ⟨-, hc⟩ := h
          subst hc
          refine ⟨?_, ?_, ?_, ?_, rfl⟩
          · have h1 := le_roundDec (d := 6) (m := -90) (by exact_mod_cast hb3)
            exact_mod_cast h1
          · have h1 := roundDec_le (d := 6) (m := 90) (by exact_mod_cast hb4)
            exact_mod_cast h1
          · have h1 := le_roundDec (d := 6) (m := -180) (by exact_mod_cast hb1)
            exact_mod_cast h1
          · have h1 := roundDec_le (d := 6) (m := 180) (by exact_mod_cast hb2)
            exact_mod_cast h1
        · exact absurd h (by simp)
      · exact absurd h (by simp)
    · exact absurd h (by simp)

/-- C2 amended: the POI-Factory CSV normalizer of `update_cameras.py` does
enforce the coordinate bounds — every record it yields satisfies
`-90 ≤ lat ≤ 90` and `-180 ≤ lon ≤ 180` — but the OSM normalizer of
`download_cameras.py` performs no bounds check, and an out-of-range OSM
node is persisted. -/
theorem c2_bounds_amended :
    (∀ (content : String) (c : Cam), c ∈ parsePoiFactoryCsv content →
      -90 ≤ c.lat ∧ c.lat ≤ 90 ∧ -180 ≤ c.lon ∧ c.lon ≤ 180) ∧
    dlDownloadCameras (.ok [e200]) =
      .ok [{ lat := mkRat 200 1, lon := mkRat 10 1, flg := 2 }] := by
  refine ⟨?_, by decide⟩
  intro content c hc
  obtain ⟨ln, k, -, hparse⟩ := dedupFold_mem poiLineParsed _ _ c hc
  have := poiLineParsed_bounds hparse
  exact ⟨this.1, this.2.1, this.2.2.1, this.2.2.2.1⟩

/-- C2 witness: the CSV bounds evaluated on a concrete accepted record. -/
theorem c2_witness :
    -90 ≤ (Cam.mk (mkRat 3405223 100000) (mkRat (-11824368) 100000) 0 (some 35) none none).lat ∧
    (Cam.mk (mkRat 3405223 100000) (mkRat (-11824368) 100000) 0 (some 35) none none).lat ≤ 90 ∧
    -180 ≤ (Cam.mk (mkRat 3405223 100000) (mkRat (-11824368) 100000) 0 (some 35) none none).lon ∧
    (Cam.mk (mkRat 3405223 100000) (mkRat (-11824368) 100000) 0 (some 35) none none).lon ≤ 180 :=
  c2_bounds_amended.1 "-118.24368,34.05223,Main St - 35 MPH" _ (by decide)

/-! ### Claim C3 -/

/-- C3 counterexample: in `download_cameras.py` an HTTP error on the fetch
calls `sys.exit(1)` — the whole run dies with exit code 1 and no fallback
source is invoked, refuting the claim that a fetch failure in one category
is never fatal to the whole run. -/
theorem c3_counterexample :
    dlMain (.httpError 500) .all none "2026-10-12" = .error 1 := by decide

/-- C3 amended: in `update_cameras.py`, when the primary OSM attempt for
the red-light or speed category fails or yields zero records, `main`
invokes the POI-Factory fallback for that category; every fetch failure is
caught (`fetchCams` maps it to the empty list), so `main` always
terminates normally with exit code 0 or 1. In `download_cameras.py`,
however, any fetch failure (timeout, HTTP error, network error) exits the
whole process with code 1 and no fallback exists. -/
theorem c3_fallback_amended :
    (∀ env : UpdEnv, fetchCams rlNormalize env.rlOsm = [] →
      updRlCams env = .poi (rlPoiCams env.rlPoi)) ∧
    (∀ env : UpdEnv, fetchCams spNormalize env.spOsm = [] →
      updSpCams env = .poi (spPoiCams env.spPoi)) ∧
    (∀ (env : UpdEnv) (sel : CamSel) (d : String),
      (updRun env sel d).exitCode = 0 ∨ (updRun env sel d).exitCode = 1) ∧
    (∀ (sel : CamSel) (st : Option String) (d : String) (s : ℕ),
      dlMain (.httpError s) sel st d = .error 1 ∧
      dlMain .timeout sel st d = .error 1 ∧
      dlMain .netError sel st d = .error 1) := by
  refine ⟨?_, ?_, ?_, ?_⟩
  · intro env h
    simp [updRlCams, h]
  · intro env h
    simp [updSpCams, h]
  · intro env sel d
    by_cases h : 0 < [if wantAlpr sel then updAlprFile env else none,
        if wantRl sel then updRlFile env else none,
        if wantSp sel then updSpFile env else none].countP Option.isSome
    · left
      simp [updRun, h]
    · right
      simp [updRun, h]
  · intro sel st d s
    refine ⟨?_, ?_, ?_⟩ <;>
      (simp only [dlMain, dlDownloadCameras]
       split <;> rfl)

/-- C3 witness: the fallback transition evaluated on a concrete
environment whose red-light OSM fetch times out. -/
theorem c3_witness :
    updRlCams (UpdEnv.mk (.ok []) .timeout (.ok "-118.1,34.1,Cam") (.ok []) (.ok "")) =
      .poi (rlPoiCams (.ok "-118.1,34.1,Cam")) :=
  c3_fallback_amended.1 _ (by decide)

/-! ### Claim C4 -/

/-- Counting helper: the success count of the three per-category files is
positive exactly when one of them was written. -/
theorem countP_isSome_pos (o1 o2 o3 : Option String) :
    0 < [o1, o2, o3].countP Option.isSome ↔
      o1.isSome = true ∨ o2.isSome = true ∨ o3.isSome = true := by
  cases o1 <;> cases o2 <;> cases o3 <;> simp [List.countP, List.countP.go]

/-- `save_cameras` writes a file exactly for a non-empty list. -/
theorem saveCameras_isSome (lineOf : Cam → List Char) (cams : List Cam) :
    (saveCameras lineOf cams).isSome = true ↔ cams ≠ [] := by
  unfold saveCameras
  split <;> simp_all

/-- The ALPR file of a run exists iff the ALPR camera list is non-empty. -/
theorem updAlprFile_isSome (env : UpdEnv) :
    (updAlprFile env).isSome = true ↔ updAlprCams env ≠ [] := by
  unfold updAlprFile
  exact saveCameras_isSome _ _

/-- The red-light file exists iff the acquired red-light list is non-empty. -/
theorem updRlFile_isSome (env : UpdEnv) :
    (updRlFile env).isSome = true ↔ (updRlCams env).cams ≠ [] := by
  unfold updRlFile
  cases h : updRlCams env <;> simp [Sourced.cams, saveCameras_isSome]

/-- The speed file exists iff the acquired speed list is non-empty. -/
theorem updSpFile_isSome (env : UpdEnv) :
    (updSpFile env).isSome = true ↔ (updSpCams env).cams ≠ [] := by
  unfold updSpFile
  cases h : updSpCams env <;> simp [Sourced.cams, saveCameras_isSome]

/-- C4: the `update_cameras.py` exit code is 0 exactly when at least one
requested category acquired a non-empty camera list (equivalently, wrote
its output file); an empty camera set never produces an output file
(`save_cameras` returns `False` without writing), and every written file
is non-empty. Likewise `download_cameras.py` exits 1 without writing when
the deduplicated set is empty, and any file it does write is non-empty. -/
theorem c4_exit_code (env : UpdEnv) (sel : CamSel) (d : String) :
    ((updRun env sel d).exitCode = 0 ↔
      (wantAlpr sel = true ∧ updAlprCams env ≠ []) ∨
      (wantRl sel = true ∧ (updRlCams env).cams ≠ []) ∨
      (wantSp sel = true ∧ (updSpCams env).cams ≠ [])) ∧
    (∀ lineOf : Cam → List Char, saveCameras lineOf [] = none) ∧
    (∀ (lineOf : Cam → List Char) (cams : List Cam) (s : String),
      saveCameras lineOf cams = some s → s ≠ "") ∧
    (∀ (r : FetchResult (List OsmElement)) (sel2 : CamSel) (d2 : String),
      dlDownloadCameras r = .ok [] → dlMain r sel2 none d2 = .error 1) ∧
    (∀ (r : FetchResult (List OsmElement)) (sel2 : CamSel) (d2 : String) (out : String),
      dlMain r sel2 none d2 = .ok out → out ≠ "") := by
  refine ⟨?_, fun _ => rfl, ?_, ?_, ?_⟩
  · simp only [updRun]
    have hsplit : ∀ b : Prop, ∀ h : Decidable b, (if b then (0:ℕ) else 1) = 0 ↔ b := by
      intro b hb
      split <;> simp_all
    rw [hsplit]
    rw [countP_isSome_pos]
    cases sel <;>
      simp [wantAlpr, wantRl, wantSp, updAlprFile_isSome, updRlFile_isSome, updSpFile_isSome]
  · intro lineOf cams s hs
    unfold saveCameras at hs
    split at hs
    · exact absurd hs (by simp)
    · rename_i hne
      simp only [Option.some.injEq] at hs
      match cams, hne with
      | c :: rest, _ =>
        intro hempty
        rw [← hs] at hempty
        have hdata : ((c :: rest).map (fun c => lineOf c ++ ['\n'])).flatten = [] :=
          congrArg String.data hempty
        simp at hdata
  · intro r sel2 d2 hok
    unfold dlMain
    rw [if_neg (by decide : ¬ (dlStateInvalid none = true))]
    simp only [hok]
    rfl
  · intro r sel2 d2 out hout
    unfold dlMain at hout
    rw [if_neg (by decide : ¬ (dlStateInvalid none = true))] at hout
    cases hok : dlDownloadCameras r with
    | error e =>
      rw [hok] at hout
      exact absurd hout (by simp)
    | ok cams =>
      simp only [hok] at hout
      split at hout
      · exact absurd hout (by simp)
      · simp only [Except.ok.injEq] at hout
        subst hout
        intro hempty
        have hdata : dlMetaLine (ctsOf sel2) none d2 cams.length ++ '\n' :: dlBodyL cams =
            ([] : List Char) :=
          congrArg String.data hempty
        simp at hdata

/-- C4 witness: the exit-code equivalence evaluated on a concrete
environment in which only the speed category succeeds. -/
theorem c4_witness :
    (updRun (UpdEnv.mk .timeout .timeout .timeout
        (.ok [OsmElement.mk "node" (some (mkRat 341 10)) (some (mkRat (-1181) 10)) none []])
        .timeout) .all "2026-10-12").exitCode = 0 :=
  (c4_exit_code _ .all "2026-10-12").1.mpr (.inr (.inr ⟨rfl, by decide⟩))

/-! ### Claim C5 -/

/-- C5 counterexample: with byte-identical upstream payloads and identical
arguments, two `download_cameras.py` runs on different dates write
different bytes — the `_meta` header line embeds `datetime.now()`'s date —
refuting byte-identical output across runs. -/
theorem c5_counterexample :
    dlMain (.ok [eA1]) .all none "2026-01-01" ≠ dlMain (.ok [eA1]) .all none "2026-01-02" := by
  decide

/-- C5 amended: `update_cameras.py` is deterministic end to end — the
output files and exit code are a function of the upstream payloads and
arguments alone, with the run date reaching only log lines — while in
`download_cameras.py` the run date enters exactly the leading `_meta`
line; the camera record lines (`dlBodyL`) depend only on the records. -/
theorem c5_determinism_amended :
    (∀ (env : UpdEnv) (sel : CamSel) (d1 d2 : String),
      updRun env sel d1 = updRun env sel d2) ∧
    (∀ (cams : List Cam) (cts : List String) (st : Option String) (d : String),
      (dlSaveContent cams cts st d).data =
        dlMetaLine cts st d cams.length ++ '\n' :: dlBodyL cams) := by
  exact ⟨fun env sel d1 d2 => rfl, fun cams cts st d => rfl⟩

/-! ### Claim C6 -/

/-- C6 counterexample: `parse_osm_element` concatenates every digit of the
first whitespace token of `maxspeed`, so the OSM value `50;60` yields
speed 5060 — not 50, the value of the first run of digits — refuting the
claim that extraction takes the first run of digits. -/
theorem c6_counterexample :
    spdUntOf [("maxspeed", "50;60")] = (some 5060, none) ∧
    specFirstRunOfDigits "50;60".data = some 50 ∧
    (5060 : ℕ) ≠ 50 := by
  refine ⟨by decide, by decide, by decide⟩

/-- C6 amended: `'35 MPH'` does yield speed 35 with no unit in all three
extractors, parse failures leave the speed absent without error, and
`download_cameras.py` records `unt = 'kmh'` on a `km` marker — but the
extraction is not "first run of digits" everywhere: `parse_osm_element`
concatenates all digits of the first whitespace token (`50;60` → 5060),
and `parse_poi_factory_csv` takes the first 2–3 digit run followed by
`mph`/`MPH` (never recording a unit; a single digit before `mph` does not
match), while only `download_speed_from_osm` takes the first digit run. -/
theorem c6_speed_amended :
    spdUntOf [("maxspeed", "35 MPH")] = (some 35, none) ∧
    updOsmSpd [("maxspeed", "35 MPH")] = some 35 ∧
    mphSearch "Main St - 35 MPH".data = some 35 ∧
    spdUntOf [("maxspeed", "50 km/h")] = (some 50, some "kmh") ∧
    spdUntOf [("maxspeed", "fast")] = (none, none) ∧
    updOsmSpd [("maxspeed", "fast")] = none ∧
    mphSearch "no speed here".data = none ∧
    mphSearch "5 mph".data = none ∧
    mphSearch "Route 66 - 35 MPH".data = some 35 ∧
    spdUntOf [("maxspeed", "50;60")] = (some 5060, none) ∧
    updOsmSpd [("maxspeed", "50;60")] = some 50 ∧
    (∀ ln k c, poiLineParsed ln = some (k, c) → c.unt = none) := by
  refine ⟨by decide, by decide, by decide, by decide, by decide, by decide,
    by decide, by decide, by decide, by decide, by decide, ?_⟩
  intro ln k c h
  exact (poiLineParsed_bounds h).2.2.2.2

/-- C6 witness: the CSV extractor's unit field evaluated on a concrete
accepted line. -/
theorem c6_witness :
    (Cam.mk (mkRat 3405223 100000) (mkRat (-11824368) 100000) 0 (some 35) none none).unt =
      none :=
  c6_speed_amended.2.2.2.2.2.2.2.2.2.2.2 "-118.24368,34.05223,Main St - 35 MPH".data
    (key5 (mkRat 3405223 100000) (mkRat (-11824368) 100000)) _ (by decide)

/-! ### Claim C7 -/

/-- C7 counterexample: `parse_osm_element` accepts a bearing of exactly
360 (`0 <= dir_val <= 360` is inclusive), so a persisted record carries
`dir = [360]`, which is not in `[0, 360)`. -/
theorem c7_counterexample :
    parseOsmElement
        { type := "node", lat := some (mkRat 34 1), lon := some (mkRat (-118) 1),
          tags := [("direction", "360")] } =
      .ok (some (Cam.mk (mkRat 34 1) (mkRat (-118) 1) 2 none none (some [360]))) ∧
    ¬((360 : ℤ) < 360) := by
  refine ⟨by decide, by decide⟩

/-- The cardinal table only produces the eight bearings 0..315. -/
theorem cardinalOf_range {s : String} {n : ℤ} (h : cardinalOf s = some n) :
    0 ≤ n ∧ n ≤ 360 := by
  unfold cardinalOf at h
  split_ifs at h <;> simp only [Option.some.injEq] at h <;> omega

/-- Every bearing stored by `dirOf` lies in `[0, 360]`. -/
theorem dirOf_range {tags : List (String × String)} {l : List ℤ}
    (h : dirOf tags = some l) : ∀ b ∈ l, 0 ≤ b ∧ b ≤ 360 := by
  simp only [dirOf] at h
  split at h
  · exact absurd h (by simp)
  · split at h
    · split at h
      · rename_i hrange
        simp only [Option.some.injEq] at h
        subst h
        intro b hb
        simp only [List.mem_singleton] at hb
        subst hb
        exact hrange
      · exact absurd h (by simp)
    · split at h
      · rename_i n hcard
        simp only [Option.some.injEq] at h
        subst h
        intro b hb
        simp only [List.mem_singleton] at hb
        subst hb
        exact cardinalOf_range hcard
      · exact absurd h (by simp)

/-- C7 amended: every bearing stored in a persisted record's `dir` field
lies in the closed interval `[0, 360]` (360 inclusive, not `[0, 360)`); an
out-of-range value such as `"400"` and an unparseable value are dropped
silently while the record is still persisted without a `dir` field. -/
theorem c7_heading_amended :
    (∀ (el : OsmElement) (rec : Cam), parseOsmElement el = .ok (some rec) →
      ∀ l, rec.dir = some l → ∀ b ∈ l, 0 ≤ b ∧ b ≤ 360) ∧
    parseOsmElement
        { type := "node", lat := some (mkRat 34 1), lon := some (mkRat (-118) 1),
          tags := [("direction", "400")] } =
      .ok (some (Cam.mk (mkRat 34 1) (mkRat (-118) 1) 2 none none none)) ∧
    parseOsmElement
        { type := "node", lat := some (mkRat 34 1), lon := some (mkRat (-118) 1),
          tags := [("direction", "sideways")] } =
      .ok (some (Cam.mk (mkRat 34 1) (mkRat (-118) 1) 2 none none none)) := by
  refine ⟨?_, by decide, by decide⟩
  intro el rec hel l hdir
  unfold parseOsmElement at hel
  split at hel
  · exact absurd hel (by simp)
  · exact absurd hel (by simp)
  · rename_i la lo heq
    simp only [Except.ok.injEq, Option.some.injEq] at hel
    subst hel
    simp only at hdir
    exact dirOf_range hdir

/-- C7 witness: the bearing-range property evaluated on a record whose
direction tag is exactly `"360"`. -/
theorem c7_witness :
    ∀ b ∈ [(360 : ℤ)], 0 ≤ b ∧ b ≤ 360 :=
  c7_heading_amended.1
    { type := "node", lat := some (mkRat 34 1), lon := some (mkRat (-118) 1),
      tags := [("direction", "360")] }
    (Cam.mk (mkRat 34 1) (mkRat (-118) 1) 2 none none (some [360]))
    (by decide) [360] rfl

/-! ### Claim C9 -/

/-- C9 counterexample: in `download_cameras.py`, a node element lacking its
`lat` key is not silently skipped — `element['lat']` raises `KeyError`,
aborting the normalization loop — refuting the claim for this normalizer. -/
theorem c9_counterexample :
    parseOsmElement { type := "node", lon := some (mkRat 5 1) } = .error () ∧
    dlNormalize [{ type := "node", lon := some (mkRat 5 1) }] = .error () := by
  refine ⟨by decide, by decide⟩

/-- C9 amended: a way without a `center` and any element that is neither
node nor way are silently skipped by `parse_osm_element`; in
`update_cameras.py` every element with a missing (or zero) coordinate is
silently skipped by all three normalizers and processing continues with
the remaining elements — but in `download_cameras.py` a node missing
`lat`/`lon` raises `KeyError` instead of being skipped. -/
theorem c9_skip_amended :
    (∀ el : OsmElement, el.type = "way" → el.center = none →
      parseOsmElement el = .ok none) ∧
    (∀ el : OsmElement, el.type ≠ "node" → el.type ≠ "way" →
      parseOsmElement el = .ok none) ∧
    (∀ el : OsmElement, el.lat = none → el.center = none →
      alprElem el = none ∧ rlElem el = none ∧ spElem el = none) ∧
    (∀ (el : OsmElement) (seen : List (ℚ × ℚ)) (rest : List OsmElement),
      alprElem el = none →
      dedupFold alprElem seen (el :: rest) = dedupFold alprElem seen rest) ∧
    (∀ el : OsmElement, el.type = "node" → el.lat = none → el.lon.isSome →
      parseOsmElement el = .error ()) := by
  refine ⟨?_, ?_, ?_, ?_, ?_⟩
  · intro el hty hc
    unfold parseOsmElement coordsOf
    rw [hty, hc]
    simp
  · intro el hn hw
    unfold parseOsmElement coordsOf
    rw [if_neg hn, if_neg hw]
  · intro el hlat hc
    refine ⟨?_, ?_, ?_⟩
    · unfold alprElem
      rw [hlat]
      rfl
    · unfold rlElem
      rw [hlat, hc]
      split <;> rfl
    · unfold spElem
      rw [hlat]
      rfl
  · intro el seen rest h
    exact dedupFold_skip alprElem seen el rest h
  · intro el hty hlat hlon
    unfold parseOsmElement coordsOf
    rw [hty, hlat]
    simp

/-- C9 witness: the skip rules evaluated on a concrete way without a
center and a concrete tagless relation. -/
theorem c9_witness :
    parseOsmElement { type := "way" } = .ok none ∧
    parseOsmElement { type := "relation" } = .ok none ∧
    alprElem { type := "node", lon := some (mkRat 5 1) } = none :=
  ⟨c9_skip_amended.1 _ rfl rfl,
   c9_skip_amended.2.1 _ (by decide) (by decide),
   (c9_skip_amended.2.2.1 _ rfl rfl).1⟩

/-! ### Claim C10 -/

/-- C10: in every OSM normalizer of `update_cameras.py` the coordinate
presence check is Python truthiness (`if not lat or not lon`), so an
element whose latitude or longitude is exactly 0 — a valid coordinate —
is skipped and produces no record, and the loop continues with the rest. -/
theorem c10_zero_coordinate (el : OsmElement)
    (h : el.lat = some 0 ∨ el.lon = some 0) (hc : el.center = none) :
    alprElem el = none ∧ rlElem el = none ∧ spElem el = none ∧
    (∀ rest, alprNormalize (el :: rest) = alprNormalize rest) ∧
    (∀ rest, rlNormalize (el :: rest) = rlNormalize rest) ∧
    (∀ rest, spNormalize (el :: rest) = spNormalize rest) := by
  have htr : truthy el.lat = none ∨ truthy el.lon = none := by
    rcases h with h | h
    · left
      rw [h]
      simp [truthy]
    · right
      rw [h]
      simp [truthy]
  have ha : alprElem el = none := by
    unfold alprElem
    rcases htr with h' | h'
    · rw [h']
    · rw [h']
      cases truthy el.lat <;> rfl
  have hr : rlElem el = none := by
    simp only [rlElem, hc, ite_self]
    rcases htr with h' | h'
    · rw [h']
    · rw [h']
      cases truthy el.lat <;> rfl
  have hs : spElem el = none := by
    unfold spElem
    rcases htr with h' | h'
    · rw [h']
    · rw [h']
      cases truthy el.lat <;> rfl
  refine ⟨ha, hr, hs, ?_, ?_, ?_⟩
  · intro rest
    exact dedupFold_skip alprElem [] el rest ha
  · intro rest
    exact dedupFold_skip rlElem [] el rest hr
  · intro rest
    exact dedupFold_skip spElem [] el rest hs

/-- C10 witness: a node on the equator (latitude exactly 0) is dropped by
all three normalizers. -/
theorem c10_witness :
    alprElem { type := "node", lat := some 0, lon := some (mkRat 10 1) } = none ∧
    rlElem { type := "node", lat := some 0, lon := some (mkRat 10 1) } = none ∧
    spElem { type := "node", lat := some 0, lon := some (mkRat 10 1) } = none :=
  let h := c10_zero_coordinate
    { type := "node", lat := some 0, lon := some (mkRat 10 1) } (.inl rfl) rfl
  ⟨h.1, h.2.1, h.2.2.1⟩

theorem digitChar_isDigit {d : ℕ} (hd : d < 10) : (digitChar d).isDigit = true := by
  interval_cases d <;> decide

theorem natStrCore_chars :
    ∀ (fuel n : ℕ) (acc : List Char), ∀ c ∈ natStrCore fuel n acc,
      c ∈ acc ∨ c.isDigit = true
  | 0, n, acc => by
    intro c hc
    exact .inl hc
  | fuel + 1, n, acc => by
    intro c hc
    rw [natStrCore] at hc
    split at hc
    · exact .inl hc
    · rcases natStrCore_chars fuel (n / 10) (digitChar (n % 10) :: acc) c hc with h | h
      · rcases List.mem_cons.mp h with h' | h'
        · right
          rw [h']
          exact digitChar_isDigit (Nat.mod_lt _ (by omega))
        · exact .inl h'
      · exact .inr h

theorem natStrL_chars {n : ℕ} {c : Char} (hc : c ∈ natStrL n) : c.isDigit = true := by
  unfold natStrL at hc
  split at hc
  · simp only [List.mem_singleton] at hc
    rw [hc]
    decide
  · rcases natStrCore_chars (n + 1) n [] c hc with h | h
    · simp at h
    · exact h

theorem fracDigits_chars {f : ℕ} {c : Char} (hc : c ∈ fracDigits f) : c.isDigit = true := by
  unfold fracDigits at hc
  rw [List.mem_reverse] at hc
  have hc2 := (List.dropWhile_sublist _).subset hc
  rw [List.mem_reverse] at hc2
  rcases List.mem_append.mp hc2 with h | h
  · have := List.eq_of_mem_replicate h
    rw [this]
    decide
  · exact natStrL_chars h

theorem renderScaledL_chars {n : ℤ} {c : Char} (hc : c ∈ renderScaledL n) :
    c.isDigit = true ∨ c = '-' ∨ c = '.' := by
  unfold renderScaledL at hc
  rcases List.mem_append.mp hc with h | h
  · rcases List.mem_append.mp h with h' | h'
    · split at h'
      · simp only [List.mem_singleton] at h'
        exact .inr (.inl h')
      · simp at h'
    · exact .inl (natStrL_chars h')
  · rcases List.mem_cons.mp h with h' | h'
    · exact .inr (.inr h')
    · split at h'
      · simp only [List.mem_singleton] at h'
        rw [h']
        exact .inl (by decide)
      · exact .inl (fracDigits_chars h')

theorem renderFloatL_chars {q : ℚ} {c : Char} (hc : c ∈ renderFloatL q) :
    c.isDigit = true ∨ c = '-' ∨ c = '.' :=
  renderScaledL_chars hc

theorem joinSep_mem {sep : List Char} {c : Char} :
    ∀ {xs : List (List Char)}, c ∈ joinSep sep xs → c ∈ sep ∨ ∃ x ∈ xs, c ∈ x
  | [], h => by simp [joinSep] at h
  | [x], h => by
    right
    exact ⟨x, List.mem_singleton_self x, h⟩
  | x :: y :: rest, h => by
    rw [joinSep] at h
    rcases List.mem_append.mp h with h' | h'
    · rcases List.mem_append.mp h' with h2 | h2
      · exact .inr ⟨x, List.mem_cons_self _ _, h2⟩
      · exact .inl h2
    · rcases joinSep_mem h' with h2 | ⟨z, hz, hcz⟩
      · exact .inl h2
      · exact .inr ⟨z, List.mem_cons_of_mem _ hz, hcz⟩

/-- Characters of a minified object line, given a character bound on every
key and value. -/
theorem mkObjL_chars {fields : List (List Char × List Char)} {c : Char}
    (hf : ∀ f ∈ fields, (∀ c' ∈ f.1, updLineChar c' = true) ∧
      (∀ c' ∈ f.2, updLineChar c' = true))
    (hc : c ∈ mkObjL [','] [':'] fields) : updLineChar c = true := by
  unfold mkObjL at hc
  rcases List.mem_cons.mp hc with h | h
  · rw [h]
    decide
  rcases List.mem_append.mp h with h' | h'
  · rcases joinSep_mem h' with h2 | ⟨piece, hpm, hcp⟩
    · simp only [List.mem_singleton] at h2
      rw [h2]
      decide
    · rcases List.mem_map.mp hpm with ⟨f, hfm, hfe⟩
      rw [← hfe] at hcp
      rcases List.mem_cons.mp hcp with h3 | h3
      · rw [h3]
        decide
      rcases List.mem_append.mp h3 with h4 | h4
      · rcases List.mem_append.mp h4 with h5 | h5
        · exact (hf f hfm).1 c h5
        · rcases List.mem_cons.mp h5 with h6 | h6
          · rw [h6]
            decide
          · simp only [List.mem_singleton] at h6
            rw [h6]
            decide
      · exact (hf f hfm).2 c h4
  · simp only [List.mem_singleton] at h'
    rw [h']
    decide

theorem updLineChar_of_float {q : ℚ} {c : Char} (hc : c ∈ renderFloatL q) :
    updLineChar c = true := by
  rcases renderFloatL_chars hc with h | h | h
  · simp [updLineChar, h]
  · simp [updLineChar, h]
  · simp [updLineChar, h]

theorem updLineChar_of_nat {n : ℕ} {c : Char} (hc : c ∈ natStrL n) :
    updLineChar c = true := by
  simp [updLineChar, natStrL_chars hc]

theorem updOsmPlainLineL_chars (cam : Cam) :
    ∀ c ∈ updOsmPlainLineL cam, updLineChar c = true := by
  intro c hc
  refine mkObjL_chars ?_ hc
  intro f hf
  have hlat : ∀ c' ∈ ("lat".data : List Char), updLineChar c' = true := by decide
  have hlon : ∀ c' ∈ ("lon".data : List Char), updLineChar c' = true := by decide
  have hflg : ∀ c' ∈ ("flg".data : List Char), updLineChar c' = true := by decide
  rcases List.mem_cons.mp hf with rfl | hf
  · exact ⟨hlat, fun c' hc' => updLineChar_of_float hc'⟩
  rcases List.mem_cons.mp hf with rfl | hf
  · exact ⟨hlon, fun c' hc' => updLineChar_of_float hc'⟩
  rcases List.mem_cons.mp hf with rfl | hf
  · exact ⟨hflg, fun c' hc' => updLineChar_of_nat hc'⟩
  · simp at hf

theorem updOsmSpeedLineL_chars (cam : Cam) :
    ∀ c ∈ updOsmSpeedLineL cam, updLineChar c = true := by
  intro c hc
  have hlat : ∀ c' ∈ ("lat".data : List Char), updLineChar c' = true := by decide
  have hlon : ∀ c' ∈ ("lon".data : List Char), updLineChar c' = true := by decide
  have hflg : ∀ c' ∈ ("flg".data : List Char), updLineChar c' = true := by decide
  have hspd : ∀ c' ∈ ("spd".data : List Char), updLineChar c' = true := by decide
  unfold updOsmSpeedLineL at hc
  cases hs : cam.spd with
  | none =>
    rw [hs] at hc
    refine mkObjL_chars ?_ hc
    intro f hf
    rcases List.mem_cons.mp hf with rfl | hf
    · exact ⟨hlat, fun c' hc' => updLineChar_of_float hc'⟩
    rcases List.mem_cons.mp hf with rfl | hf
    · exact ⟨hlon, fun c' hc' => updLineChar_of_float hc'⟩
    rcases List.mem_cons.mp hf with rfl | hf
    · exact ⟨hflg, fun c' hc' => updLineChar_of_nat hc'⟩
    · simp at hf
  | some s =>
    rw [hs] at hc
    refine mkObjL_chars ?_ hc
    intro f hf
    rcases List.mem_cons.mp hf with rfl | hf
    · exact ⟨hlat, fun c' hc' => updLineChar_of_float hc'⟩
    rcases List.mem_cons.mp hf with rfl | hf
    · exact ⟨hlon, fun c' hc' => updLineChar_of_float hc'⟩
    rcases List.mem_cons.mp hf with rfl | hf
    · exact ⟨hflg, fun c' hc' => updLineChar_of_nat hc'⟩
    rcases List.mem_cons.mp hf with rfl | hf
    · exact ⟨hspd, fun c' hc' => updLineChar_of_nat hc'⟩
    · simp at hf

theorem updCsvLineL_chars (cam : Cam) :
    ∀ c ∈ updCsvLineL cam, updLineChar c = true := by
  intro c hc
  have hlat : ∀ c' ∈ ("lat".data : List Char), updLineChar c' = true := by decide
  have hlon : ∀ c' ∈ ("lon".data : List Char), updLineChar c' = true := by decide
  have hflg : ∀ c' ∈ ("flg".data : List Char), updLineChar c' = true := by decide
  have hspd : ∀ c' ∈ ("spd".data : List Char), updLineChar c' = true := by decide
  unfold updCsvLineL at hc
  cases hs : cam.spd with
  | none =>
    rw [hs] at hc
    refine mkObjL_chars ?_ hc
    intro f hf
    rcases List.mem_cons.mp hf with rfl | hf
    · exact ⟨hlat, fun c' hc' => updLineChar_of_float hc'⟩
    rcases List.mem_cons.mp hf with rfl | hf
    · exact ⟨hlon, fun c' hc' => updLineChar_of_float hc'⟩
    rcases List.mem_cons.mp hf with rfl | hf
    · exact ⟨hflg, fun c' hc' => updLineChar_of_nat hc'⟩
    · simp at hf
  | some s =>
    rw [hs] at hc
    refine mkObjL_chars ?_ hc
    intro f hf
    rcases List.mem_cons.mp hf with rfl | hf
    · exact ⟨hlat, fun c' hc' => updLineChar_of_float hc'⟩
    rcases List.mem_cons.mp hf with rfl | hf
    · exact ⟨hlon, fun c' hc' => updLineChar_of_float hc'⟩
    rcases List.mem_cons.mp hf with rfl | hf
    · exact ⟨hspd, fun c' hc' => updLineChar_of_nat hc'⟩
    rcases List.mem_cons.mp hf with rfl | hf
    · exact ⟨hflg, fun c' hc' => updLineChar_of_nat hc'⟩
    · simp at hf

theorem startsWithL_mem :
    ∀ {needle hay : List Char}, startsWithL needle hay = true → ∀ c ∈ needle, c ∈ hay
  | [], _, _, c, hc => by simp at hc
  | _ :: _, [], h, c, hc => by simp [startsWithL] at h
  | p :: ps, x :: xs, h, c, hc => by
    rw [startsWithL] at h
    simp only [Bool.and_eq_true, beq_iff_eq] at h
    rcases List.mem_cons.mp hc with h' | h'
    · rw [h', h.1]
      exact List.mem_cons_self _ _
    · exact List.mem_cons_of_mem _ (startsWithL_mem h.2 c h')

theorem containsSubL_mem :
    ∀ {needle hay : List Char}, containsSubL needle hay = true → ∀ c ∈ needle, c ∈ hay
  | needle, [], h, c, hc => by
    rw [containsSubL] at h
    exact startsWithL_mem h c hc
  | needle, x :: xs, h, c, hc => by
    rw [containsSubL] at h
    simp only [Bool.or_eq_true] at h
    rcases h with h' | h'
    · exact startsWithL_mem h' c hc
    · exact List.mem_cons_of_mem _ (containsSubL_mem h' c hc)

/-! ### Claim C8 -/

/-- C8 counterexample: `save_ndjson` in `download_cameras.py` calls
`json.dumps` with the default separators, which insert a space after every
comma and colon — the written line is not minified. -/
theorem c8_counterexample :
    String.mk (dlLineL (Cam.mk (mkRat 1 1) (mkRat 2 1) 2 none none none)) =
      "\x7b\x22lat\x22: 1.0, \x22lon\x22: 2.0, \x22flg\x22: 2\x7d" ∧
    ' ' ∈ dlLineL (Cam.mk (mkRat 1 1) (mkRat 2 1) 2 none none none) := by
  refine ⟨by decide, by decide⟩

/-- C8 amended: `save_cameras` in `update_cameras.py` writes one JSON
object per line with no whitespace at all, absent optional fields are
omitted entirely (a record without `spd` serializes exactly like the
`spd`-less shape) and no `null` token can occur; `save_ndjson` in
`download_cameras.py` also omits absent fields and writes one object per
line, but uses Python's default separators, inserting a space after every
comma and colon. -/
theorem c8_writer_amended :
    (∀ c : Cam, ' ' ∉ updOsmPlainLineL c ∧ ' ' ∉ updOsmSpeedLineL c ∧
      ' ' ∉ updCsvLineL c) ∧
    (∀ c : Cam, c.spd = none →
      updOsmSpeedLineL c = updOsmPlainLineL c ∧ updCsvLineL c = updOsmPlainLineL c) ∧
    (∀ c : Cam, containsSubL "null".data (updOsmPlainLineL c) = false ∧
      containsSubL "null".data (updOsmSpeedLineL c) = false ∧
      containsSubL "null".data (updCsvLineL c) = false) ∧
    String.mk (updOsmSpeedLineL (Cam.mk (mkRat 3405223 100000) (mkRat (-11824368) 100000)
        1 (some 35) none none)) =
      "\x7b\x22lat\x22:34.05223,\x22lon\x22:-118.24368,\x22flg\x22:1,\x22spd\x22:35\x7d" ∧
    ' ' ∈ dlLineL (Cam.mk (mkRat 1 1) (mkRat 2 1) 2 none none none) ∧
    (∀ c : Cam, c.spd = none → c.unt = none → c.dir = none →
      dlLineL c = mkObjL ", ".data ": ".data
        [("lat".data, renderFloatL c.lat), ("lon".data, renderFloatL c.lon),
         ("flg".data, natStrL c.flg)]) := by
  have hspace : ∀ (cam : Cam) (line : List Char),
      (∀ c' ∈ line, updLineChar c' = true) → ' ' ∉ line := by
    intro cam line hchars hmem
    have := hchars ' ' hmem
    simp [updLineChar, obr, cbr] at this
  have hu : ∀ (line : List Char), (∀ c' ∈ line, updLineChar c' = true) →
      containsSubL "null".data line = false := by
    intro line hchars
    by_contra hne
    have htrue : containsSubL "null".data line = true := by
      cases h : containsSubL "null".data line
      · exact absurd h hne
      · rfl
    have humem : 'u' ∈ line := containsSubL_mem htrue 'u' (by decide)
    have := hchars 'u' humem
    simp [updLineChar, obr, cbr] at this
  refine ⟨?_, ?_, ?_, by decide, by decide, ?_⟩
  · intro c
    exact ⟨hspace c _ (updOsmPlainLineL_chars c), hspace c _ (updOsmSpeedLineL_chars c),
      hspace c _ (updCsvLineL_chars c)⟩
  · intro c hs
    constructor
    · unfold updOsmSpeedLineL updOsmPlainLineL
      rw [hs]
      simp
    · unfold updCsvLineL updOsmPlainLineL
      rw [hs]
      rfl
  · intro c
    exact ⟨hu _ (updOsmPlainLineL_chars c), hu _ (updOsmSpeedLineL_chars c),
      hu _ (updCsvLineL_chars c)⟩
  · intro c hs hum hd
    unfold dlLineL dlFields
    rw [hs, hum, hd]
    rfl

/-- C8 witness: field omission evaluated on a concrete record without a
speed limit. -/
theorem c8_witness :
    updOsmSpeedLineL (Cam.mk (mkRat 341 10) (mkRat (-1181) 10) 1 none none none) =
      updOsmPlainLineL (Cam.mk (mkRat 341 10) (mkRat (-1181) 10) 1 none none none) :=
  (c8_writer_amended.2.1 _ rfl).1

end V1Cameras
